import Mathlib

/-!
Verification of the svg2gio SVG-to-path compiler (src/svg2gio/main.go).

The Go program is shallowly embedded here:
* coordinates are modelled as exact rationals (`ℚ`); the Go code uses
  float32/float64, and every concrete input exercised below takes only
  small dyadic values on which float arithmetic is exact;
* the emitted drawing program (`p.MoveTo`, `p.LineTo`, `p.CubeTo`,
  `p.Close` lines written to the output writer) is modelled as a
  `List DrawOp`;
* fallible code returns `Except`/`Option`; a Go runtime panic from an
  out-of-range slice index is modelled as the error `PathErr.indexOutOfRange`
  (for the path compiler) or as `none` (for `Poly.Path`);
* the loops of `printPathCommands` and `Points.UnmarshalText` consume at
  least one input character per iteration, so they are embedded as
  structurally recursive functions on a fuel argument initialised to
  `length + 1`, which can never be exhausted.
-/

namespace Svg2Gio

/-- A 2-D point, the embedding of `f32.Point`. -/
abbrev Pt := ℚ × ℚ

/-- One emitted drawing instruction: a `p.MoveTo`/`p.LineTo`/`p.CubeTo`/`p.Close`
line written by the generator. -/
inductive DrawOp where
  | moveTo (p : Pt)
  | lineTo (p : Pt)
  | cubeTo (p1 p2 p3 : Pt)
  | close
deriving DecidableEq, Repr

/-- Errors of `printPathCommands`.  `indexOutOfRange` models the Go runtime
panic raised by `points[i+1]`/`points[i+2]` when a C/S command has an
incomplete final group. -/
inductive PathErr where
  | unknownCommand (c : Char)
  | oddCoords
  | indexOutOfRange
deriving DecidableEq, Repr

/-- The state of the path compiler: `pen`, `initPoint` (the subpath start set
by moveto commands) and `ctrl2` (the reflection anchor for S/s). -/
structure PState where
  pen : Pt
  initPoint : Pt
  ctrl2 : Pt
deriving DecidableEq, Repr

/-- The embedding of the Go `Color` struct: an unset flag plus the packed
value (`int` in Go, exact `ℤ` here). -/
structure Color where
  set : Bool
  value : ℤ
deriving DecidableEq, Repr

/-- Errors of `Color.UnmarshalText`: the explicit `invalid color` error for a
missing `#` prefix, and the `strconv.ParseInt` error (syntax or range). -/
inductive ColorErr where
  | invalidColor
  | parseError
deriving DecidableEq, Repr

/-! ## Numeric scanning (`parseFloat`, path coordinate loop) -/

/-- The character class accepted by the loop in the Go `parseFloat`. -/
def isDigitDot (c : Char) : Bool := c.isDigit || c == '.'

/-- Value of a digit string as a rational (most significant first). -/
def digitsVal (ds : List Char) : ℚ :=
  ds.foldl (fun acc c => acc * 10 + ((c.toNat - '0'.toNat : ℕ) : ℚ)) 0

/-- Value of a digit string as a natural number. -/
def digitsNat (ds : List Char) : ℕ :=
  ds.foldl (fun acc c => acc * 10 + (c.toNat - '0'.toNat)) 0

/-- Value of a token made of digits and at most one `'.'`. -/
def mantissaValue (ds : List Char) : ℚ :=
  let ip := ds.takeWhile (fun c => c != '.')
  let fp := (ds.dropWhile (fun c => c != '.')).drop 1
  digitsVal ip + digitsVal fp / (10 : ℚ) ^ fp.length

/-- Whether `strconv.ParseFloat` accepts a token consisting of an optional
leading `'-'` followed by digits and dots: it must contain at least one digit
and at most one dot. -/
def validDecToken (t : List Char) : Bool :=
  let body := match t with
    | '-' :: r => r
    | _ => t
  body.any Char.isDigit && body.all isDigitDot && decide (body.count '.' ≤ 1)

/-- Signed value of a `-`/digits/dot token. -/
def tokenValue (t : List Char) : ℚ :=
  match t with
  | '-' :: r => - mantissaValue r
  | _ => mantissaValue t

/-- Length taken by the Go `parseFloat` scan: an optional leading `'-'`,
then the maximal run of digits and dots. -/
def floatTokenLen (s : List Char) : Nat :=
  match s with
  | '-' :: rest => 1 + (rest.takeWhile isDigitDot).length
  | _ => (s.takeWhile isDigitDot).length

/-- The embedding of the Go `parseFloat(s) (int, float64, bool)`: the number
of characters consumed, the parsed value, and whether `strconv.ParseFloat`
accepted the consumed token. -/
def parseFloat (s : List Char) : Nat × ℚ × Bool :=
  let n := floatTokenLen s
  let t := s.take n
  (n, tokenValue t, validDecToken t)

/-- The separator set `" ,\t\n"` trimmed by the path-command loop. -/
def isPathSep (c : Char) : Bool := c == ' ' || c == ',' || c == '\t' || c == '\n'

/-- The inner coordinate-scanning loop of `printPathCommands`: repeatedly trim
separators and apply `parseFloat`, stopping (without error) at the first
rejected token.  Returns the scanned values and the unconsumed remainder.
Fuel-structural; each iteration consumes at least one character. -/
def scanCoordsF : Nat → List Char → List ℚ × List Char
  | 0, s => ([], s)
  | fuel + 1, s =>
    match s.dropWhile isPathSep with
    | [] => ([], [])
    | c :: cs =>
      let pr := parseFloat (c :: cs)
      if pr.2.2 then
        let r := scanCoordsF fuel ((c :: cs).drop pr.1)
        (pr.2.1 :: r.1, r.2)
      else ([], c :: cs)

/-- Coordinate scanning with adequate fuel. -/
def scanCoords (s : List Char) : List ℚ × List Char :=
  scanCoordsF (s.length + 1) s

/-! ## The path-command state machine (`printPathCommands`) -/

/-- `pen.Mul(2).Sub(ctrl2)`: the reflected first control point of S/s. -/
def reflectCtrl (pen ctrl : Pt) : Pt := (2 * pen.1 - ctrl.1, 2 * pen.2 - ctrl.2)

/-- Consecutive coordinate pairs of a list (`for i := 0; i < len; i += 2`). -/
def pairUp : List ℚ → List Pt
  | x :: y :: rest => (x, y) :: pairUp rest
  | _ => []

/-- `p = p.Add(off)` applied to every scanned point of a command. -/
def shiftPts (off : Pt) (l : List Pt) : List Pt :=
  l.map (fun p => (p.1 + off.1, p.2 + off.2))

/-- The C/c loop: consume groups of three points, emitting `CubeTo` and
threading `newPen`/`newCtrl2`.  A trailing group of one or two points makes
the Go code read past the end of `points` (a panic), modelled as
`indexOutOfRange`. -/
def cubeChunks : List Pt → Pt → Pt → Except PathErr (List DrawOp × Pt × Pt)
  | [], np, nc => .ok ([], np, nc)
  | [_], _, _ => .error .indexOutOfRange
  | [_, _], _, _ => .error .indexOutOfRange
  | p1 :: p2 :: p3 :: rest, _, _ =>
    match cubeChunks rest p3 p2 with
    | .error e => .error e
    | .ok (ops, np, nc) => .ok (.cubeTo p1 p2 p3 :: ops, np, nc)

/-- The S/s loop: consume groups of two points.  The first control point `c1`
is computed once from the pen and reflection anchor as they stood when the
command began (the Go loop reads the outer `pen`/`ctrl2` variables, which are
only written back after the loop).  A trailing single point is a panic. -/
def sChunks (c1 : Pt) : List Pt → Pt → Pt → Except PathErr (List DrawOp × Pt × Pt)
  | [], np, nc => .ok ([], np, nc)
  | [_], _, _ => .error .indexOutOfRange
  | p2 :: p3 :: rest, _, _ =>
    match sChunks c1 rest p3 p2 with
    | .error e => .error e
    | .ok (ops, np, nc) => .ok (.cubeTo c1 p2 p3 :: ops, np, nc)

/-- The Z/z branch of the command switch: emit `LineTo(initPoint)` when the
pen is away from the subpath start, and reset the pen and the reflection
anchor to the subpath start. -/
def closeCmd (st : PState) : List DrawOp × PState :=
  if st.pen ≠ st.initPoint then
    ([.lineTo st.initPoint], { st with pen := st.initPoint, ctrl2 := st.initPoint })
  else
    ([], { st with ctrl2 := st.initPoint })

/-- One non-Z command of `printPathCommands`, given the already scanned
coordinates: the H/h and V/v chains (exempt from the parity check), then the
even-arity check, then the M/m, L/l, C/c, S/s cases. -/
def doCommand (op : Char) (coords : List ℚ) (st : PState) :
    Except PathErr (List DrawOp × PState) :=
  let rel := op.isLower
  if op.toLower = 'h' then
    let pts := coords.map (fun x => ((if rel then x + st.pen.1 else x), st.pen.2))
    let np := pts.getLastD st.pen
    .ok (pts.map .lineTo, { st with pen := np, ctrl2 := np })
  else if op.toLower = 'v' then
    let pts := coords.map (fun y => (st.pen.1, (if rel then y + st.pen.2 else y)))
    let np := pts.getLastD st.pen
    .ok (pts.map .lineTo, { st with pen := np, ctrl2 := np })
  else if coords.length % 2 ≠ 0 then .error .oddCoords
  else
    let off : Pt := if rel then st.pen else (0, 0)
    let points := shiftPts off (pairUp coords)
    if op.toLower = 'm' then
      let np := points.getLastD st.pen
      .ok (points.map .moveTo, { pen := np, initPoint := np, ctrl2 := st.ctrl2 })
    else if op.toLower = 'l' then
      let np := points.getLastD st.pen
      .ok (points.map .lineTo, { st with pen := np })
    else if op.toLower = 'c' then
      match cubeChunks points st.pen st.ctrl2 with
      | .error e => .error e
      | .ok (ops, np, nc) => .ok (ops, { st with pen := np, ctrl2 := nc })
    else if op.toLower = 's' then
      match sChunks (reflectCtrl st.pen st.ctrl2) points st.pen st.ctrl2 with
      | .error e => .error e
      | .ok (ops, np, nc) => .ok (ops, { st with pen := np, ctrl2 := nc })
    else .error (.unknownCommand op)

/-- The letters accepted by the first `switch` of `printPathCommands`
(other than Z/z, which close the subpath instead of scanning coordinates). -/
def isValidOp (c : Char) : Bool :=
  c == 'M' || c == 'm' || c == 'V' || c == 'v' || c == 'L' || c == 'l' ||
  c == 'H' || c == 'h' || c == 'C' || c == 'c' || c == 'S' || c == 's'

/-- The main loop of `printPathCommands`: trim separators, take the command
letter, close on Z/z, otherwise scan coordinates and run the command.
Fuel-structural; each iteration consumes at least the command letter. -/
def runPathF : Nat → PState → List Char → Except PathErr (List DrawOp × PState)
  | 0, st, _ => .ok ([], st)
  | fuel + 1, st, s =>
    match s.dropWhile isPathSep with
    | [] => .ok ([], st)
    | op :: rest =>
      if op = 'Z' ∨ op = 'z' then
        let r := closeCmd st
        match runPathF fuel r.2 rest with
        | .error e => .error e
        | .ok (more, fin) => .ok (r.1 ++ more, fin)
      else if isValidOp op then
        let sc := scanCoords rest
        match doCommand op sc.1 st with
        | .error e => .error e
        | .ok (ops, st1) =>
          match runPathF fuel st1 sc.2 with
          | .error e => .error e
          | .ok (more, fin) => .ok (ops ++ more, fin)
      else .error (.unknownCommand op)

/-- Run the path-command loop from a given state with adequate fuel. -/
def runPath (st : PState) (s : List Char) : Except PathErr (List DrawOp × PState) :=
  runPathF (s.length + 1) st s

/-- The initial state: the zero-valued `pen`, `initPoint` and `ctrl2`. -/
def pstate0 : PState := ⟨(0, 0), (0, 0), (0, 0)⟩

/-- The whitespace set of Go `strings.TrimSpace` (ASCII part). -/
def isGoSpace (c : Char) : Bool :=
  c == ' ' || c == '\t' || c == '\n' || c == '\x0b' || c == '\x0c' || c == '\r'

/-- Go `strings.TrimSpace`. -/
def trimSpace (s : List Char) : List Char :=
  ((s.dropWhile isGoSpace).reverse.dropWhile isGoSpace).reverse

/-- The embedding of `printPathCommands`: the drawing program emitted for a
`d` path attribute. -/
def printPathCommands (s : String) : Except PathErr (List DrawOp) :=
  match runPath pstate0 (trimSpace s.toList) with
  | .error e => .error e
  | .ok (ops, _) => .ok ops

/-! ## `Poly.Path` (polygon / polyline) -/

/-- The `for i := 2; i < len; i += 2` loop of `Poly.Path`, run on the
coordinates after the first pair: each pair becomes a `LineTo` and the last
pair is returned as `last`.  When exactly one coordinate remains, the loop
guard `i < len` still holds and the Go code reads `p.Points[i+1]`, one index
past the end of the list: modelled as `none`. -/
def polyTail : List ℚ → Pt → Option (List DrawOp × Pt)
  | [], last => some ([], last)
  | [_], _ => none
  | x :: y :: rest, _ =>
    match polyTail rest (x, y) with
    | none => none
    | some (ops, l) => some (.lineTo (x, y) :: ops, l)

/-- The embedding of `Poly.Path`: `name` is the XML element name
(`"polygon"` or `"polyline"`).  At most one coordinate emits nothing;
otherwise `MoveTo` on the first pair, `LineTo` on each following pair, and
for polygons one extra `LineTo` back to the first pair when the last pair
differs from it. -/
def polyPath (name : String) (pts : List ℚ) : Option (List DrawOp) :=
  if pts.length ≤ 1 then some []
  else
    match pts with
    | x :: y :: rest =>
      match polyTail rest (x, y) with
      | none => none
      | some (ops, last) =>
        some (.moveTo (x, y) :: ops ++
          (if name = "polygon" ∧ last ≠ (x, y) then [.lineTo (x, y)] else []))
    | _ => some []

/-! ## `Color.UnmarshalText` -/

/-- Hexadecimal digit value, as accepted by `strconv.ParseInt(…, 16, 32)`. -/
def hexVal? (c : Char) : Option ℕ :=
  if c.isDigit then some (c.toNat - '0'.toNat)
  else if 'a' ≤ c ∧ c ≤ 'f' then some (c.toNat - 'a'.toNat + 10)
  else if 'A' ≤ c ∧ c ≤ 'F' then some (c.toNat - 'A'.toNat + 10)
  else none

/-- Value of a non-empty all-hex digit string; `none` otherwise. -/
def hexNat? (s : List Char) : Option ℕ :=
  if s.isEmpty then none
  else s.foldl (fun acc c => acc.bind fun a => (hexVal? c).map fun d => a * 16 + d) (some 0)

/-- The embedding of `strconv.ParseInt(s, 16, 32)`: an optional sign, at
least one hex digit, and the result must fit in a signed 32-bit integer
(otherwise Go reports `ErrRange`; the method propagates the error either
way, so both failures collapse to `none`). -/
def goParseIntHex32 (s : List Char) : Option ℤ :=
  let sgn := match s with
    | '-' :: r => (true, r)
    | '+' :: r => (false, r)
    | _ => (false, s)
  match hexNat? sgn.2 with
  | none => none
  | some n =>
    let v : ℤ := if sgn.1 then -(n : ℤ) else (n : ℤ)
    if v < -2147483648 ∨ 2147483647 < v then none else some v

/-- The embedding of `Color.UnmarshalText`: `"none"` clears the color; a
missing `"#"` prefix is the `invalid color` error; otherwise the rest is
parsed by `strconv.ParseInt(…, 16, 32)` and, exactly when six characters
follow the `#`, the implied alpha `0xff000000` is OR-ed in. -/
def unmarshalColor (text : List Char) : Except ColorErr Color :=
  if text = "none".toList then .ok ⟨false, 0⟩
  else if text.take 1 ≠ ['#'] then .error .invalidColor
  else
    let rest := text.drop 1
    match goParseIntHex32 rest with
    | none => .error .parseError
    | some i => .ok ⟨true, if rest.length = 6 then Int.lor i 0xff000000 else i⟩

/-! ## `Points.UnmarshalText`, `Transform.UnmarshalText`, viewBox -/

/-- The decimal part of Go `strconv.ParseFloat`: optional sign, a mantissa
of digits with an optional dot (at least one digit overall), and an optional
`e`/`E` exponent with optional sign and at least one digit.  The special
forms `inf`/`nan` and hexadecimal floats, which no input below exercises,
are omitted; float32 rounding is ignored (values stay exact rationals). -/
def goParseFloat (s : List Char) : Option ℚ :=
  let sgn := match s with
    | '+' :: r => (false, r)
    | '-' :: r => (true, r)
    | _ => (false, s)
  let s1 := sgn.2
  let ip := s1.takeWhile Char.isDigit
  let s2 := s1.drop ip.length
  let fr := match s2 with
    | '.' :: r => (r.takeWhile Char.isDigit, r.dropWhile Char.isDigit)
    | _ => (([] : List Char), s2)
  let fp := fr.1
  if ip.isEmpty && fp.isEmpty then none
  else
    let mant : ℚ := digitsVal ip + digitsVal fp / (10 : ℚ) ^ fp.length
    let mant := if sgn.1 then -mant else mant
    match fr.2 with
    | [] => some mant
    | e :: r =>
      if e == 'e' || e == 'E' then
        let esgn := match r with
          | '+' :: rr => (false, rr)
          | '-' :: rr => (true, rr)
          | _ => (false, r)
        let ed := esgn.2.takeWhile Char.isDigit
        if ed.isEmpty || !(esgn.2.drop ed.length).isEmpty then none
        else some (if esgn.1 then mant / 10 ^ digitsNat ed else mant * 10 ^ digitsNat ed)
      else none

/-- The loop of `Points.UnmarshalText`: trim leading tabs/newlines (only
those two characters), split off everything up to the first space or comma,
and feed that chunk to `strconv.ParseFloat`, whose failure aborts with an
error.  Fuel-structural; each iteration consumes the chunk plus its
separator. -/
def pointsUnmarshalF : Nat → List Char → List ℚ → Except Unit (List ℚ)
  | 0, _, acc => .ok acc
  | fuel + 1, text, acc =>
    let t := text.dropWhile (fun c => c == '\t' || c == '\n')
    if t.isEmpty then .ok acc
    else
      let num := t.takeWhile (fun c => !(c == ' ' || c == ','))
      match goParseFloat num with
      | none => .error ()
      | some f =>
        match t.drop num.length with
        | [] => .ok (acc ++ [f])
        | _ :: r => pointsUnmarshalF fuel r (acc ++ [f])

/-- The embedding of `Points.UnmarshalText`, with adequate fuel. -/
def pointsUnmarshal (text : List Char) : Except Unit (List ℚ) :=
  pointsUnmarshalF (text.length + 1) text []

/-- The embedding of `Transform.UnmarshalText`: only the textual form
`matrix(…)` is accepted; the inner text must scan to exactly six numbers
(returned here as the six coefficients fed to `f32.NewAffine2D`). -/
def transformUnmarshal (text : List Char) : Except Unit (List ℚ) :=
  if text.take 7 = "matrix(".toList ∧ text.getLast? = some ')' then
    match pointsUnmarshal ((text.drop 7).dropLast) with
    | .error e => .error e
    | .ok p => if p.length ≠ 6 then .error () else .ok p
  else .error ()

/-- The viewBox attribute handling in `parse`: the attribute text must scan
to exactly four numbers, which become the min and max points. -/
def parseViewBox (s : List Char) : Except Unit (Pt × Pt) :=
  match pointsUnmarshal s with
  | .error _ => .error ()
  | .ok [a, b, c, d] => .ok ((a, b), (c, d))
  | .ok _ => .error ()

/-! ## The generated `ellipse` helper -/

/-- The embedding of the generated `ellipse(p, center, radius)` function,
used for both `<circle>` and `<ellipse>`.  The Go constant
`q = 4 * (math.Sqrt2 - 1) / 3` is irrational, so in this rational model it
is a parameter; every theorem below holds for all values of `q`.  The code
models the ellipse as a circle of radius `r = radius.X` scaled by
`scale = radius.Y / r` in the Y direction, starts at the top point and
emits four cubic segments. -/
def ellipse (q : ℚ) (center radius : Pt) : List DrawOp :=
  let r := radius.1
  let scale := radius.2 / r
  let curve := r * q
  let top : Pt := (center.1, center.2 - r * scale)
  [.moveTo top,
   .cubeTo (center.1 + curve, center.2 - r * scale)
           (center.1 + r, center.2 - curve * scale)
           (center.1 + r, center.2),
   .cubeTo (center.1 + r, center.2 + curve * scale)
           (center.1 + curve, center.2 + r * scale)
           (center.1, center.2 + r * scale),
   .cubeTo (center.1 - curve, center.2 + r * scale)
           (center.1 - r, center.2 + curve * scale)
           (center.1 - r, center.2),
   .cubeTo (center.1 - r, center.2 - curve * scale)
           (center.1 - curve, center.2 - r * scale)
           top]

/-- `Ellipse.Path` emits a call `ellipse(&p, center, (rx, ry))`. -/
def ellipsePath (q : ℚ) (cx cy rx ry : ℚ) : List DrawOp :=
  ellipse q (cx, cy) (rx, ry)

/-- `Circle.Path` emits a call `ellipse(&p, center, (r, r))`. -/
def circlePath (q : ℚ) (cx cy r : ℚ) : List DrawOp :=
  ellipse q (cx, cy) (r, r)

end Svg2Gio

deriving instance DecidableEq for Except

namespace Svg2Gio

/-! ## Unfolding equations for `doCommand`, one per command letter -/

theorem shiftPts_zero (l : List Pt) : shiftPts (0, 0) l = l := by
  induction l with
  | nil => rfl
  | cons p r ih => simp [shiftPts] at ih ⊢

theorem doCommand_H (coords : List ℚ) (st : PState) :
    doCommand 'H' coords st =
      .ok ((coords.map (fun x => ((x : ℚ), st.pen.2))).map .lineTo,
        { st with pen := (coords.map (fun x => ((x : ℚ), st.pen.2))).getLastD st.pen,
                  ctrl2 := (coords.map (fun x => ((x : ℚ), st.pen.2))).getLastD st.pen }) := rfl

theorem doCommand_h (coords : List ℚ) (st : PState) :
    doCommand 'h' coords st =
      .ok ((coords.map (fun x => (x + st.pen.1, st.pen.2))).map .lineTo,
        { st with pen := (coords.map (fun x => (x + st.pen.1, st.pen.2))).getLastD st.pen,
                  ctrl2 := (coords.map (fun x => (x + st.pen.1, st.pen.2))).getLastD st.pen }) := rfl

theorem doCommand_V (coords : List ℚ) (st : PState) :
    doCommand 'V' coords st =
      .ok ((coords.map (fun y => (st.pen.1, (y : ℚ)))).map .lineTo,
        { st with pen := (coords.map (fun y => (st.pen.1, (y : ℚ)))).getLastD st.pen,
                  ctrl2 := (coords.map (fun y => (st.pen.1, (y : ℚ)))).getLastD st.pen }) := rfl

theorem doCommand_v (coords : List ℚ) (st : PState) :
    doCommand 'v' coords st =
      .ok ((coords.map (fun y => (st.pen.1, y + st.pen.2))).map .lineTo,
        { st with pen := (coords.map (fun y => (st.pen.1, y + st.pen.2))).getLastD st.pen,
                  ctrl2 := (coords.map (fun y => (st.pen.1, y + st.pen.2))).getLastD st.pen }) := rfl

theorem doCommand_M (coords : List ℚ) (st : PState) :
    doCommand 'M' coords st =
      (if coords.length % 2 ≠ 0 then .error .oddCoords
       else .ok ((shiftPts (0, 0) (pairUp coords)).map .moveTo,
         ⟨(shiftPts (0, 0) (pairUp coords)).getLastD st.pen,
          (shiftPts (0, 0) (pairUp coords)).getLastD st.pen, st.ctrl2⟩)) := rfl

theorem doCommand_m (coords : List ℚ) (st : PState) :
    doCommand 'm' coords st =
      (if coords.length % 2 ≠ 0 then .error .oddCoords
       else .ok ((shiftPts st.pen (pairUp coords)).map .moveTo,
         ⟨(shiftPts st.pen (pairUp coords)).getLastD st.pen,
          (shiftPts st.pen (pairUp coords)).getLastD st.pen, st.ctrl2⟩)) := rfl

theorem doCommand_L (coords : List ℚ) (st : PState) :
    doCommand 'L' coords st =
      (if coords.length % 2 ≠ 0 then .error .oddCoords
       else .ok ((shiftPts (0, 0) (pairUp coords)).map .lineTo,
         { st with pen := (shiftPts (0, 0) (pairUp coords)).getLastD st.pen })) := rfl

theorem doCommand_l (coords : List ℚ) (st : PState) :
    doCommand 'l' coords st =
      (if coords.length % 2 ≠ 0 then .error .oddCoords
       else .ok ((shiftPts st.pen (pairUp coords)).map .lineTo,
         { st with pen := (shiftPts st.pen (pairUp coords)).getLastD st.pen })) := rfl

theorem doCommand_C (coords : List ℚ) (st : PState) :
    doCommand 'C' coords st =
      (if coords.length % 2 ≠ 0 then .error .oddCoords
       else match cubeChunks (shiftPts (0, 0) (pairUp coords)) st.pen st.ctrl2 with
       | .error er => .error er
       | .ok (ops, np, nc) => .ok (ops, { st with pen := np, ctrl2 := nc })) := rfl

theorem doCommand_c (coords : List ℚ) (st : PState) :
    doCommand 'c' coords st =
      (if coords.length % 2 ≠ 0 then .error .oddCoords
       else match cubeChunks (shiftPts st.pen (pairUp coords)) st.pen st.ctrl2 with
       | .error er => .error er
       | .ok (ops, np, nc) => .ok (ops, { st with pen := np, ctrl2 := nc })) := rfl

theorem doCommand_S (coords : List ℚ) (st : PState) :
    doCommand 'S' coords st =
      (if coords.length % 2 ≠ 0 then .error .oddCoords
       else match sChunks (reflectCtrl st.pen st.ctrl2) (shiftPts (0, 0) (pairUp coords))
              st.pen st.ctrl2 with
       | .error er => .error er
       | .ok (ops, np, nc) => .ok (ops, { st with pen := np, ctrl2 := nc })) := rfl

theorem doCommand_s (coords : List ℚ) (st : PState) :
    doCommand 's' coords st =
      (if coords.length % 2 ≠ 0 then .error .oddCoords
       else match sChunks (reflectCtrl st.pen st.ctrl2) (shiftPts st.pen (pairUp coords))
              st.pen st.ctrl2 with
       | .error er => .error er
       | .ok (ops, np, nc) => .ok (ops, { st with pen := np, ctrl2 := nc })) := rfl

/-- Every cubic emitted by the S/s loop carries the precomputed first control
point `c1`. -/
theorem sChunks_ctrl1 :
    ∀ (c1 : Pt) (pts : List Pt) (np nc : Pt) (ops : List DrawOp) (fin : Pt × Pt),
      sChunks c1 pts np nc = .ok (ops, fin) →
      ∀ a b c, DrawOp.cubeTo a b c ∈ ops → a = c1
  | c1, [], np, nc, ops, fin, h => by
    simp only [sChunks, Except.ok.injEq, Prod.mk.injEq] at h
    intro a b c hmem
    rw [← h.1] at hmem
    cases hmem
  | c1, [p], np, nc, ops, fin, h => by
    simp only [sChunks] at h
    cases h
  | c1, p2 :: p3 :: rest, np, nc, ops, fin, h => by
    have step : sChunks c1 (p2 :: p3 :: rest) np nc =
        (match sChunks c1 rest p3 p2 with
         | .error e => .error e
         | .ok (ops, np, nc) => .ok (.cubeTo c1 p2 p3 :: ops, np, nc)) := rfl
    rw [step] at h
    cases hrec : sChunks c1 rest p3 p2 with
    | error e => rw [hrec] at h; cases h
    | ok val =>
      obtain ⟨ops1, fin1⟩ := val
      rw [hrec] at h
      simp only [Except.ok.injEq, Prod.mk.injEq] at h
      intro a b c hmem
      rw [← h.1] at hmem
      rcases List.mem_cons.mp hmem with hhead | htail
      · cases hhead; rfl
      · exact sChunks_ctrl1 c1 rest p3 p2 ops1 fin1 hrec a b c htail

end Svg2Gio

namespace Svg2Gio

/-! ## Claim C1 -/

/-- Claim C1 fails on the code: for the path data `M0,0 1,1` the compiler
emits `MoveTo(0,0), MoveTo(1,1)` (not an implicit `LineTo(1,1)`), and the
final state's `initPoint` (subpathStart) is the last pair `(1,1)`, not the
first pair `(0,0)`. -/
theorem C1_counterexample :
    runPath pstate0 (trimSpace "M0,0 1,1".toList) =
      .ok ([.moveTo (0, 0), .moveTo (1, 1)], ⟨(1, 1), (1, 1), (0, 0)⟩) ∧
    printPathCommands "M0,0 1,1" ≠ .ok [.moveTo (0, 0), .lineTo (1, 1)] ∧
    ((⟨(1, 1), (1, 1), (0, 0)⟩ : PState)).initPoint ≠ ((0, 0) : Pt) := by
  refine ⟨by with_unfolding_all decide, by with_unfolding_all decide,
    by with_unfolding_all decide⟩

/-- Claim C1, amended: for every M or m path command (with an even number of
coordinates), the compiler emits MoveTo for **every** coordinate pair —
subsequent pairs are not turned into implicit LineTo — and it sets
`subpathStart` (and the pen) to the **last** pair of the command; the first
pair does not persist as the subpath anchor. -/
theorem C1_amended (coords : List ℚ) (st : PState) (h2 : coords.length % 2 = 0) :
    doCommand 'M' coords st =
      .ok ((pairUp coords).map DrawOp.moveTo,
        ⟨(pairUp coords).getLastD st.pen, (pairUp coords).getLastD st.pen, st.ctrl2⟩) ∧
    doCommand 'm' coords st =
      .ok ((shiftPts st.pen (pairUp coords)).map DrawOp.moveTo,
        ⟨(shiftPts st.pen (pairUp coords)).getLastD st.pen,
         (shiftPts st.pen (pairUp coords)).getLastD st.pen, st.ctrl2⟩) := by
  constructor
  · rw [doCommand_M, if_neg (by simp [h2]), shiftPts_zero]
  · rw [doCommand_m, if_neg (by simp [h2])]

/-- Witness for C1_amended at the concrete command `M0,0 1,1` from the
initial state. -/
theorem C1_amended_witness :
    doCommand 'M' [0, 0, 1, 1] pstate0 =
      .ok ([.moveTo (0, 0), .moveTo (1, 1)], ⟨(1, 1), (1, 1), (0, 0)⟩) := by
  have h := (C1_amended [0, 0, 1, 1] pstate0 (by decide)).1
  rw [h]
  with_unfolding_all decide

/-! ## Claim C4 -/

/-- Claim C4 holds: a Z/z command emits `LineTo(subpathStart)` exactly when
the pen differs from `subpathStart`, after which pen, subpathStart and the
reflection anchor all equal `subpathStart` (so a repeated Z emits nothing);
and `M0,0 L10,0 L10,10 Z` compiles to exactly
`[MoveTo(0,0), LineTo(10,0), LineTo(10,10), LineTo(0,0)]`. -/
theorem C4_close :
    (∀ st : PState,
      closeCmd st =
        ((if st.pen ≠ st.initPoint then [.lineTo st.initPoint] else []),
          ⟨st.initPoint, st.initPoint, st.initPoint⟩)) ∧
    printPathCommands "M0,0 L10,0 L10,10 Z" =
      .ok [.moveTo (0, 0), .lineTo (10, 0), .lineTo (10, 10), .lineTo (0, 0)] ∧
    printPathCommands "M0,0 L10,0 L10,10 Z z" =
      .ok [.moveTo (0, 0), .lineTo (10, 0), .lineTo (10, 10), .lineTo (0, 0)] := by
  refine ⟨?_, by with_unfolding_all decide, by with_unfolding_all decide⟩
  intro st
  unfold closeCmd
  by_cases h : st.pen ≠ st.initPoint
  · rw [if_pos h, if_pos h]
  · rw [if_neg h, if_neg h]
    push_neg at h
    rw [h]

/-- Witness for C4_close at a concrete open state. -/
theorem C4_close_witness :
    closeCmd ⟨(10, 10), (0, 0), (10, 10)⟩ =
      ([.lineTo (0, 0)], ⟨(0, 0), (0, 0), (0, 0)⟩) := by
  have h := C4_close.1 ⟨(10, 10), (0, 0), (10, 10)⟩
  rw [h]
  with_unfolding_all decide

/-! ## Claim C5 -/

/-- Claim C5 holds: every cubic emitted by an S/s command has first control
point `2·pen − lastControl` (the reflection of the stored anchor through the
pen, both taken as they stood when the command began), and on
`M0,0 C1,1 2,1 3,0 S4,1 5,0` the S segment is emitted as
`CubeTo((4,−1), (4,1), (5,0))`. -/
theorem C5_reflection :
    (∀ (op : Char) (coords : List ℚ) (st : PState) (ops : List DrawOp) (st1 : PState),
      (op = 'S' ∨ op = 's') →
      doCommand op coords st = .ok (ops, st1) →
      ∀ a b c, DrawOp.cubeTo a b c ∈ ops →
        a = (2 * st.pen.1 - st.ctrl2.1, 2 * st.pen.2 - st.ctrl2.2)) ∧
    printPathCommands "M0,0 C1,1 2,1 3,0 S4,1 5,0" =
      .ok [.moveTo (0, 0), .cubeTo (1, 1) (2, 1) (3, 0), .cubeTo (4, -1) (4, 1) (5, 0)] := by
  refine ⟨?_, by with_unfolding_all decide⟩
  intro op coords st ops st1 hop heq
  have key : ∀ pts, (match sChunks (reflectCtrl st.pen st.ctrl2) pts st.pen st.ctrl2 with
       | .error er => .error er
       | .ok (ops, np, nc) =>
          .ok (ops, { st with pen := np, ctrl2 := nc })) = (.ok (ops, st1) : Except PathErr _) →
      ∀ a b c, DrawOp.cubeTo a b c ∈ ops →
        a = (2 * st.pen.1 - st.ctrl2.1, 2 * st.pen.2 - st.ctrl2.2) := by
    intro pts h a b c hmem
    cases hrec : sChunks (reflectCtrl st.pen st.ctrl2) pts st.pen st.ctrl2 with
    | error e => rw [hrec] at h; cases h
    | ok val =>
      obtain ⟨ops1, fin1⟩ := val
      rw [hrec] at h
      simp only [Except.ok.injEq, Prod.mk.injEq] at h
      rw [← h.1] at hmem
      exact sChunks_ctrl1 _ pts st.pen st.ctrl2 ops1 fin1 hrec a b c hmem
  rcases hop with rfl | rfl
  · rw [doCommand_S] at heq
    by_cases hpar : coords.length % 2 ≠ 0
    · rw [if_pos hpar] at heq; cases heq
    · rw [if_neg hpar] at heq
      exact key _ heq
  · rw [doCommand_s] at heq
    by_cases hpar : coords.length % 2 ≠ 0
    · rw [if_pos hpar] at heq; cases heq
    · rw [if_neg hpar] at heq
      exact key _ heq

/-- Witness for C5_reflection: the S command of the spec's example, run from
the state left by `M0,0 C1,1 2,1 3,0`, emits the single cubic whose first
control point is `(4,−1) = 2·(3,0) − (2,1)`. -/
theorem C5_reflection_witness :
    ((4 : ℚ), (-1 : ℚ)) =
      (2 * (⟨(3, 0), (0, 0), (2, 1)⟩ : PState).pen.1 - (⟨(3, 0), (0, 0), (2, 1)⟩ : PState).ctrl2.1,
       2 * (⟨(3, 0), (0, 0), (2, 1)⟩ : PState).pen.2 - (⟨(3, 0), (0, 0), (2, 1)⟩ : PState).ctrl2.2) := by
  have h := C5_reflection.1 'S' [4, 1, 5, 0] ⟨(3, 0), (0, 0), (2, 1)⟩
    [.cubeTo (4, -1) (4, 1) (5, 0)] ⟨(5, 0), (0, 0), (4, 1)⟩ (Or.inl rfl)
    (by with_unfolding_all decide) (4, -1) (4, 1) (5, 0) (by with_unfolding_all decide)
  exact h

end Svg2Gio

namespace Svg2Gio

/-- Every point of every cubic emitted by the C/c loop is one of the scanned
points. -/
theorem cubeChunks_mem :
    ∀ (pts : List Pt) (np nc : Pt) (ops : List DrawOp) (fin : Pt × Pt),
      cubeChunks pts np nc = .ok (ops, fin) →
      ∀ a b c, DrawOp.cubeTo a b c ∈ ops → a ∈ pts ∧ b ∈ pts ∧ c ∈ pts
  | [], np, nc, ops, fin, h => by
    simp only [cubeChunks, Except.ok.injEq, Prod.mk.injEq] at h
    intro a b c hmem
    rw [← h.1] at hmem
    cases hmem
  | [p], np, nc, ops, fin, h => by
    simp only [cubeChunks] at h
    cases h
  | [p, q], np, nc, ops, fin, h => by
    simp only [cubeChunks] at h
    cases h
  | p1 :: p2 :: p3 :: rest, np, nc, ops, fin, h => by
    have step : cubeChunks (p1 :: p2 :: p3 :: rest) np nc =
        (match cubeChunks rest p3 p2 with
         | .error e => .error e
         | .ok (ops, np, nc) => .ok (.cubeTo p1 p2 p3 :: ops, np, nc)) := rfl
    rw [step] at h
    cases hrec : cubeChunks rest p3 p2 with
    | error e => rw [hrec] at h; cases h
    | ok val =>
      obtain ⟨ops1, fin1⟩ := val
      rw [hrec] at h
      simp only [Except.ok.injEq, Prod.mk.injEq] at h
      intro a b c hmem
      rw [← h.1] at hmem
      rcases List.mem_cons.mp hmem with hhead | htail
      · cases hhead
        refine ⟨by simp, by simp, by simp⟩
      · have ih := cubeChunks_mem rest p3 p2 ops1 fin1 hrec a b c htail
        exact ⟨by simp [ih.1], by simp [ih.2.1], by simp [ih.2.2]⟩

/-- The second control point and end point of every cubic emitted by the S/s
loop are among the scanned points. -/
theorem sChunks_mem :
    ∀ (c1 : Pt) (pts : List Pt) (np nc : Pt) (ops : List DrawOp) (fin : Pt × Pt),
      sChunks c1 pts np nc = .ok (ops, fin) →
      ∀ a b c, DrawOp.cubeTo a b c ∈ ops → b ∈ pts ∧ c ∈ pts
  | c1, [], np, nc, ops, fin, h => by
    simp only [sChunks, Except.ok.injEq, Prod.mk.injEq] at h
    intro a b c hmem
    rw [← h.1] at hmem
    cases hmem
  | c1, [p], np, nc, ops, fin, h => by
    simp only [sChunks] at h
    cases h
  | c1, p2 :: p3 :: rest, np, nc, ops, fin, h => by
    have step : sChunks c1 (p2 :: p3 :: rest) np nc =
        (match sChunks c1 rest p3 p2 with
         | .error e => .error e
         | .ok (ops, np, nc) => .ok (.cubeTo c1 p2 p3 :: ops, np, nc)) := rfl
    rw [step] at h
    cases hrec : sChunks c1 rest p3 p2 with
    | error e => rw [hrec] at h; cases h
    | ok val =>
      obtain ⟨ops1, fin1⟩ := val
      rw [hrec] at h
      simp only [Except.ok.injEq, Prod.mk.injEq] at h
      intro a b c hmem
      rw [← h.1] at hmem
      rcases List.mem_cons.mp hmem with hhead | htail
      · cases hhead
        exact ⟨by simp, by simp⟩
      · have ih := sChunks_mem c1 rest p3 p2 ops1 fin1 hrec a b c htail
        exact ⟨by simp [ih.1], by simp [ih.2]⟩

/-! ## Claim C2 -/

/-- Claim C2 fails on the code: after `M0,0 C1,1 2,1 3,0 L4,0` the reflection
anchor is still `(2,1)` (the L command did not reset it to the pen `(4,0)`),
and the following S command therefore emits ctrl1 `(6,−1) = 2·(4,0) − (2,1)`,
not the pen. -/
theorem C2_counterexample :
    runPath pstate0 (trimSpace "M0,0 C1,1 2,1 3,0 L4,0".toList) =
      .ok ([.moveTo (0, 0), .cubeTo (1, 1) (2, 1) (3, 0), .lineTo (4, 0)],
        ⟨(4, 0), (0, 0), (2, 1)⟩) ∧
    ((⟨(4, 0), (0, 0), (2, 1)⟩ : PState)).ctrl2 ≠ ((⟨(4, 0), (0, 0), (2, 1)⟩ : PState)).pen ∧
    printPathCommands "M0,0 C1,1 2,1 3,0 L4,0 S6,1 7,0" =
      .ok [.moveTo (0, 0), .cubeTo (1, 1) (2, 1) (3, 0), .lineTo (4, 0),
           .cubeTo (6, -1) (6, 1) (7, 0)] ∧
    ((6 : ℚ), (-1 : ℚ)) ≠ ((4 : ℚ), (0 : ℚ)) := by
  refine ⟨by with_unfolding_all decide, by with_unfolding_all decide,
    by with_unfolding_all decide, by with_unfolding_all decide⟩

/-- Claim C2, amended: the reflection anchor `lastControl` equals the pen
after every H/h/V/v command and after Z/z (which sets both to subpathStart);
but M/m and L/l commands leave `lastControl` unchanged rather than resetting
it.  Consequently an S/s immediately following an H/V/Z command — or any
state in which the anchor already equals the pen — degenerates to
ctrl1 = pen, while an S following an L or M in general does not. -/
theorem C2_amended :
    (∀ (op : Char) (coords : List ℚ) (st : PState) (ops : List DrawOp) (st1 : PState),
      (op = 'H' ∨ op = 'h' ∨ op = 'V' ∨ op = 'v') →
      doCommand op coords st = .ok (ops, st1) → st1.ctrl2 = st1.pen) ∧
    (∀ st : PState, (closeCmd st).2.ctrl2 = (closeCmd st).2.pen) ∧
    (∀ (op : Char) (coords : List ℚ) (st : PState) (ops : List DrawOp) (st1 : PState),
      (op = 'M' ∨ op = 'm' ∨ op = 'L' ∨ op = 'l') →
      doCommand op coords st = .ok (ops, st1) → st1.ctrl2 = st.ctrl2) ∧
    (∀ (op : Char) (coords : List ℚ) (st : PState) (ops : List DrawOp) (st1 : PState),
      st.ctrl2 = st.pen →
      (op = 'S' ∨ op = 's') →
      doCommand op coords st = .ok (ops, st1) →
      ∀ a b c, DrawOp.cubeTo a b c ∈ ops → a = st.pen) := by
  refine ⟨?_, ?_, ?_, ?_⟩
  · intro op coords st ops st1 hop heq
    rcases hop with rfl | rfl | rfl | rfl
    · rw [doCommand_H] at heq
      simp only [Except.ok.injEq, Prod.mk.injEq] at heq
      rw [← heq.2]
    · rw [doCommand_h] at heq
      simp only [Except.ok.injEq, Prod.mk.injEq] at heq
      rw [← heq.2]
    · rw [doCommand_V] at heq
      simp only [Except.ok.injEq, Prod.mk.injEq] at heq
      rw [← heq.2]
    · rw [doCommand_v] at heq
      simp only [Except.ok.injEq, Prod.mk.injEq] at heq
      rw [← heq.2]
  · intro st
    unfold closeCmd
    by_cases h : st.pen ≠ st.initPoint
    · rw [if_pos h]
    · rw [if_neg h]
      push_neg at h
      exact h.symm
  · intro op coords st ops st1 hop heq
    rcases hop with rfl | rfl | rfl | rfl
    · rw [doCommand_M] at heq
      by_cases hpar : coords.length % 2 ≠ 0
      · rw [if_pos hpar] at heq; cases heq
      · rw [if_neg hpar] at heq
        simp only [Except.ok.injEq, Prod.mk.injEq] at heq
        rw [← heq.2]
    · rw [doCommand_m] at heq
      by_cases hpar : coords.length % 2 ≠ 0
      · rw [if_pos hpar] at heq; cases heq
      · rw [if_neg hpar] at heq
        simp only [Except.ok.injEq, Prod.mk.injEq] at heq
        rw [← heq.2]
    · rw [doCommand_L] at heq
      by_cases hpar : coords.length % 2 ≠ 0
      · rw [if_pos hpar] at heq; cases heq
      · rw [if_neg hpar] at heq
        simp only [Except.ok.injEq, Prod.mk.injEq] at heq
        rw [← heq.2]
    · rw [doCommand_l] at heq
      by_cases hpar : coords.length % 2 ≠ 0
      · rw [if_pos hpar] at heq; cases heq
      · rw [if_neg hpar] at heq
        simp only [Except.ok.injEq, Prod.mk.injEq] at heq
        rw [← heq.2]
  · intro op coords st ops st1 hanchor hop heq
    have hrefl : reflectCtrl st.pen st.ctrl2 = st.pen := by
      rw [hanchor]
      unfold reflectCtrl
      exact Prod.ext (by ring) (by ring)
    have key : ∀ pts, (match sChunks (reflectCtrl st.pen st.ctrl2) pts st.pen st.ctrl2 with
         | .error er => .error er
         | .ok (ops, np, nc) =>
            .ok (ops, { st with pen := np, ctrl2 := nc })) = (.ok (ops, st1) : Except PathErr _) →
        ∀ a b c, DrawOp.cubeTo a b c ∈ ops → a = st.pen := by
      intro pts h a b c hmem
      cases hrec : sChunks (reflectCtrl st.pen st.ctrl2) pts st.pen st.ctrl2 with
      | error e => rw [hrec] at h; cases h
      | ok val =>
        obtain ⟨ops1, fin1⟩ := val
        rw [hrec] at h
        simp only [Except.ok.injEq, Prod.mk.injEq] at h
        rw [← h.1] at hmem
        rw [← hrefl]
        exact sChunks_ctrl1 _ pts st.pen st.ctrl2 ops1 fin1 hrec a b c hmem
    rcases hop with rfl | rfl
    · rw [doCommand_S] at heq
      by_cases hpar : coords.length % 2 ≠ 0
      · rw [if_pos hpar] at heq; cases heq
      · rw [if_neg hpar] at heq
        exact key _ heq
    · rw [doCommand_s] at heq
      by_cases hpar : coords.length % 2 ≠ 0
      · rw [if_pos hpar] at heq; cases heq
      · rw [if_neg hpar] at heq
        exact key _ heq

/-- Witness for C2_amended: concrete instances of all four conjuncts. -/
theorem C2_amended_witness :
    ((⟨(5, 0), (0, 0), (5, 0)⟩ : PState)).ctrl2 = ((⟨(5, 0), (0, 0), (5, 0)⟩ : PState)).pen ∧
    (closeCmd ⟨(1, 1), (0, 0), (2, 2)⟩).2.ctrl2 = (closeCmd ⟨(1, 1), (0, 0), (2, 2)⟩).2.pen ∧
    ((⟨(4, 0), (0, 0), (2, 1)⟩ : PState)).ctrl2 = ((⟨(3, 0), (0, 0), (2, 1)⟩ : PState)).ctrl2 ∧
    ((1 : ℚ), (1 : ℚ)) = ((⟨(1, 1), (0, 0), (1, 1)⟩ : PState)).pen := by
  refine ⟨?_, C2_amended.2.1 ⟨(1, 1), (0, 0), (2, 2)⟩, ?_, ?_⟩
  · exact C2_amended.1 'h' [5] pstate0 [.lineTo (5, 0)] ⟨(5, 0), (0, 0), (5, 0)⟩
      (Or.inr (Or.inl rfl)) (by with_unfolding_all decide)
  · exact C2_amended.2.2.1 'L' [4, 0] ⟨(3, 0), (0, 0), (2, 1)⟩ [.lineTo (4, 0)]
      ⟨(4, 0), (0, 0), (2, 1)⟩ (Or.inr (Or.inr (Or.inl rfl))) (by with_unfolding_all decide)
  · exact C2_amended.2.2.2 'S' [2, 2, 3, 3] ⟨(1, 1), (0, 0), (1, 1)⟩
      [.cubeTo (1, 1) (2, 2) (3, 3)] ⟨(3, 3), (0, 0), (2, 2)⟩ rfl (Or.inl rfl)
      (by with_unfolding_all decide) (1, 1) (2, 2) (3, 3) (by with_unfolding_all decide)

end Svg2Gio

namespace Svg2Gio

/-! ## Claim C3 -/

/-- Claim C3 fails on the code for h/v: the offsets are not applied
incrementally.  For `h10 10` the pen used for the offset stays at `(0,0)`
for both values, so the compiler emits `LineTo(10,0)` twice instead of
`LineTo(10,0), LineTo(20,0)`. -/
theorem C3_counterexample :
    printPathCommands "h10 10" = .ok [.lineTo (10, 0), .lineTo (10, 0)] ∧
    printPathCommands "h10 10" ≠ .ok [.lineTo (10, 0), .lineTo (20, 0)] := by
  refine ⟨by with_unfolding_all decide, by with_unfolding_all decide⟩

/-- Claim C3, amended: for every relative multi-pair command (m, l, c, s),
every coordinate pair in the same command is offset by the pen position as it
stood before the command began; and for every h/v command, each value is a
1-D offset added to the matching axis of the pen **as it stood before the
command began** — not applied incrementally within the command. -/
theorem C3_amended :
    (∀ (coords : List ℚ) (st : PState) (ops : List DrawOp) (st1 : PState),
      doCommand 'h' coords st = .ok (ops, st1) →
      ops = coords.map (fun x => .lineTo (x + st.pen.1, st.pen.2))) ∧
    (∀ (coords : List ℚ) (st : PState) (ops : List DrawOp) (st1 : PState),
      doCommand 'v' coords st = .ok (ops, st1) →
      ops = coords.map (fun y => .lineTo (st.pen.1, y + st.pen.2))) ∧
    (∀ (coords : List ℚ) (st : PState) (ops : List DrawOp) (st1 : PState),
      doCommand 'm' coords st = .ok (ops, st1) →
      ops = (pairUp coords).map (fun p => .moveTo (p.1 + st.pen.1, p.2 + st.pen.2))) ∧
    (∀ (coords : List ℚ) (st : PState) (ops : List DrawOp) (st1 : PState),
      doCommand 'l' coords st = .ok (ops, st1) →
      ops = (pairUp coords).map (fun p => .lineTo (p.1 + st.pen.1, p.2 + st.pen.2))) ∧
    (∀ (coords : List ℚ) (st : PState) (ops : List DrawOp) (st1 : PState),
      doCommand 'c' coords st = .ok (ops, st1) →
      ∀ a b c, DrawOp.cubeTo a b c ∈ ops →
        a ∈ shiftPts st.pen (pairUp coords) ∧ b ∈ shiftPts st.pen (pairUp coords) ∧
        c ∈ shiftPts st.pen (pairUp coords)) ∧
    (∀ (coords : List ℚ) (st : PState) (ops : List DrawOp) (st1 : PState),
      doCommand 's' coords st = .ok (ops, st1) →
      ∀ a b c, DrawOp.cubeTo a b c ∈ ops →
        b ∈ shiftPts st.pen (pairUp coords) ∧ c ∈ shiftPts st.pen (pairUp coords)) := by
  refine ⟨?_, ?_, ?_, ?_, ?_, ?_⟩
  · intro coords st ops st1 heq
    rw [doCommand_h] at heq
    simp only [Except.ok.injEq, Prod.mk.injEq] at heq
    rw [← heq.1, List.map_map]
    rfl
  · intro coords st ops st1 heq
    rw [doCommand_v] at heq
    simp only [Except.ok.injEq, Prod.mk.injEq] at heq
    rw [← heq.1, List.map_map]
    rfl
  · intro coords st ops st1 heq
    rw [doCommand_m] at heq
    by_cases hpar : coords.length % 2 ≠ 0
    · rw [if_pos hpar] at heq; cases heq
    · rw [if_neg hpar] at heq
      simp only [Except.ok.injEq, Prod.mk.injEq] at heq
      rw [← heq.1]
      unfold shiftPts
      rw [List.map_map]
      rfl
  · intro coords st ops st1 heq
    rw [doCommand_l] at heq
    by_cases hpar : coords.length % 2 ≠ 0
    · rw [if_pos hpar] at heq; cases heq
    · rw [if_neg hpar] at heq
      simp only [Except.ok.injEq, Prod.mk.injEq] at heq
      rw [← heq.1]
      unfold shiftPts
      rw [List.map_map]
      rfl
  · intro coords st ops st1 heq
    rw [doCommand_c] at heq
    by_cases hpar : coords.length % 2 ≠ 0
    · rw [if_pos hpar] at heq; cases heq
    · rw [if_neg hpar] at heq
      intro a b c hmem
      cases hrec : cubeChunks (shiftPts st.pen (pairUp coords)) st.pen st.ctrl2 with
      | error e => rw [hrec] at heq; cases heq
      | ok val =>
        obtain ⟨ops1, fin1⟩ := val
        rw [hrec] at heq
        simp only [Except.ok.injEq, Prod.mk.injEq] at heq
        rw [← heq.1] at hmem
        exact cubeChunks_mem _ st.pen st.ctrl2 ops1 fin1 hrec a b c hmem
  · intro coords st ops st1 heq
    rw [doCommand_s] at heq
    by_cases hpar : coords.length % 2 ≠ 0
    · rw [if_pos hpar] at heq; cases heq
    · rw [if_neg hpar] at heq
      intro a b c hmem
      cases hrec : sChunks (reflectCtrl st.pen st.ctrl2) (shiftPts st.pen (pairUp coords))
          st.pen st.ctrl2 with
      | error e => rw [hrec] at heq; cases heq
      | ok val =>
        obtain ⟨ops1, fin1⟩ := val
        rw [hrec] at heq
        simp only [Except.ok.injEq, Prod.mk.injEq] at heq
        rw [← heq.1] at hmem
        exact sChunks_mem _ _ st.pen st.ctrl2 ops1 fin1 hrec a b c hmem

/-- Witness for C3_amended: concrete instances of the h, l, c and s parts. -/
theorem C3_amended_witness :
    ([.lineTo ((10 : ℚ), (0 : ℚ)), .lineTo (10, 0)] : List DrawOp) =
      [(10 : ℚ), 10].map (fun x => .lineTo (x + pstate0.pen.1, pstate0.pen.2)) ∧
    ([.lineTo ((3 : ℚ), (4 : ℚ))] : List DrawOp) =
      (pairUp [(2 : ℚ), 2]).map
        (fun p => .lineTo (p.1 + ((⟨(1, 2), (0, 0), (0, 0)⟩ : PState)).pen.1,
          p.2 + ((⟨(1, 2), (0, 0), (0, 0)⟩ : PState)).pen.2)) ∧
    (((2 : ℚ), (3 : ℚ)) ∈ shiftPts ((⟨(1, 1), (0, 0), (0, 0)⟩ : PState)).pen
      (pairUp [1, 2, 3, 4, 5, 6])) ∧
    (((3 : ℚ), (4 : ℚ)) ∈ shiftPts ((⟨(1, 1), (0, 0), (0, 0)⟩ : PState)).pen
      (pairUp [2, 3, 4, 5])) := by
  refine ⟨?_, ?_, ?_, ?_⟩
  · exact C3_amended.1 [10, 10] pstate0 [.lineTo (10, 0), .lineTo (10, 0)]
      ⟨(10, 0), (0, 0), (10, 0)⟩ (by with_unfolding_all decide)
  · exact C3_amended.2.2.2.1 [2, 2] ⟨(1, 2), (0, 0), (0, 0)⟩ [.lineTo (3, 4)]
      ⟨(3, 4), (0, 0), (0, 0)⟩ (by with_unfolding_all decide)
  · exact (C3_amended.2.2.2.2.1 [1, 2, 3, 4, 5, 6] ⟨(1, 1), (0, 0), (0, 0)⟩
      [.cubeTo (2, 3) (4, 5) (6, 7)] ⟨(6, 7), (0, 0), (4, 5)⟩
      (by with_unfolding_all decide) (2, 3) (4, 5) (6, 7)
      (by with_unfolding_all decide)).1
  · exact (C3_amended.2.2.2.2.2 [2, 3, 4, 5] ⟨(1, 1), (0, 0), (0, 0)⟩
      [.cubeTo (2, 2) (3, 4) (5, 6)] ⟨(5, 6), (0, 0), (3, 4)⟩
      (by with_unfolding_all decide) (2, 2) (3, 4) (5, 6)
      (by with_unfolding_all decide)).1

end Svg2Gio

namespace Svg2Gio

/-- On an even-length tail, the `Poly.Path` loop emits one LineTo per pair
and finishes with `last` = the final pair (or the given default). -/
theorem polyTail_even :
    ∀ (rest : List ℚ) (last : Pt), rest.length % 2 = 0 →
      polyTail rest last = some ((pairUp rest).map .lineTo, (pairUp rest).getLastD last)
  | [], last, _ => by simp [polyTail, pairUp]
  | [x], _, h => by simp at h
  | x :: y :: rest, last, h => by
    have ih := polyTail_even rest (x, y)
      (by simp only [List.length_cons] at h; omega)
    have step : polyTail (x :: y :: rest) last =
        (match polyTail rest (x, y) with
         | none => none
         | some (ops, l) => some (.lineTo (x, y) :: ops, l)) := rfl
    rw [step, ih]
    simp only [pairUp, List.map_cons, List.getLastD_cons]

/-- On an odd-length tail, the `Poly.Path` loop hits the out-of-range read. -/
theorem polyTail_odd :
    ∀ (rest : List ℚ) (last : Pt), rest.length % 2 = 1 → polyTail rest last = none
  | [], _, h => by simp at h
  | [x], last, _ => rfl
  | x :: y :: rest, last, h => by
    have ih := polyTail_odd rest (x, y)
      (by simp only [List.length_cons] at h; omega)
    have step : polyTail (x :: y :: rest) last =
        (match polyTail rest (x, y) with
         | none => none
         | some (ops, l) => some (.lineTo (x, y) :: ops, l)) := rfl
    rw [step, ih]

/-! ## Claim C7 -/

/-- Claim C7 fails on the code for single-pair inputs: a points list holding
exactly one coordinate pair (fewer than two pairs) yields `[MoveTo]`, not an
empty program — only lists of at most one **value** yield an empty program. -/
theorem C7_counterexample :
    polyPath "polygon" [5, 5] = some [.moveTo (5, 5)] ∧
    polyPath "polygon" [5, 5] ≠ (some [] : Option (List DrawOp)) := by
  refine ⟨by rfl, by with_unfolding_all decide⟩

/-- Claim C7, amended: the converter emits MoveTo on the first pair and
LineTo on each subsequent pair; exactly for polygons whose last pair differs
from the first, one extra LineTo back to the first pair is appended (a
polyline never auto-closes); no Close op is ever emitted; and a points list
with fewer than two **values** yields an empty program, while a single pair
yields just its MoveTo. -/
theorem C7_amended :
    (∀ (name : String) (x y : ℚ) (rest : List ℚ), rest.length % 2 = 0 →
      polyPath name (x :: y :: rest) =
        some (.moveTo (x, y) :: (pairUp rest).map .lineTo ++
          (if name = "polygon" ∧ (pairUp rest).getLastD (x, y) ≠ (x, y)
           then [.lineTo (x, y)] else []))) ∧
    (∀ (name : String) (pts : List ℚ), pts.length ≤ 1 → polyPath name pts = some []) ∧
    (∀ (name : String) (pts : List ℚ) (ops : List DrawOp),
      polyPath name pts = some ops → DrawOp.close ∉ ops) := by
  have main : ∀ (name : String) (x y : ℚ) (rest : List ℚ), rest.length % 2 = 0 →
      polyPath name (x :: y :: rest) =
        some (.moveTo (x, y) :: (pairUp rest).map .lineTo ++
          (if name = "polygon" ∧ (pairUp rest).getLastD (x, y) ≠ (x, y)
           then [.lineTo (x, y)] else [])) := by
    intro name x y rest h
    have hlen : ¬ (x :: y :: rest).length ≤ 1 := by simp
    have step : polyPath name (x :: y :: rest) =
        (if (x :: y :: rest).length ≤ 1 then some []
         else match polyTail rest (x, y) with
         | none => none
         | some (ops, last) =>
           some (.moveTo (x, y) :: ops ++
             (if name = "polygon" ∧ last ≠ (x, y) then [.lineTo (x, y)] else []))) := rfl
    rw [step, if_neg hlen, polyTail_even rest (x, y) h]
  have small : ∀ (name : String) (pts : List ℚ), pts.length ≤ 1 → polyPath name pts = some [] := by
    intro name pts h
    unfold polyPath
    rw [if_pos h]
  refine ⟨main, small, ?_⟩
  intro name pts ops h
  by_cases hlen : pts.length ≤ 1
  · rw [small name pts hlen] at h
    simp only [Option.some.injEq] at h
    rw [← h]
    simp
  · match pts, hlen with
    | [], hlen => exact absurd (by simp) hlen
    | [x], hlen => exact absurd (by simp) hlen
    | x :: y :: rest, _ =>
      by_cases hpar : rest.length % 2 = 0
      · rw [main name x y rest hpar] at h
        simp only [Option.some.injEq] at h
        rw [← h]
        intro hmem
        rcases List.mem_cons.mp hmem with hc | hc
        · cases hc
        · rcases List.mem_append.mp hc with hc2 | hc2
          · rcases List.mem_map.mp hc2 with ⟨p, _, hp⟩
            cases hp
          · by_cases hcond : name = "polygon" ∧ (pairUp rest).getLastD (x, y) ≠ (x, y)
            · rw [if_pos hcond] at hc2
              rcases List.mem_singleton.mp hc2 with hc3
              cases hc3
            · rw [if_neg hcond] at hc2
              cases hc2
      · have hodd : rest.length % 2 = 1 := Nat.mod_two_eq_zero_or_one _ |>.resolve_left hpar
        have hlen2 : ¬ (x :: y :: rest).length ≤ 1 := by simp
        have step : polyPath name (x :: y :: rest) =
            (if (x :: y :: rest).length ≤ 1 then some []
             else match polyTail rest (x, y) with
             | none => none
             | some (ops, last) =>
               some (.moveTo (x, y) :: ops ++
                 (if name = "polygon" ∧ last ≠ (x, y) then [.lineTo (x, y)] else []))) := rfl
        rw [step, if_neg hlen2, polyTail_odd rest (x, y) hodd] at h
        cases h

/-- Witness for C7_amended: an open polygon gains the closing LineTo, a
single pair yields just its MoveTo, and the compiled triangle contains no
Close op. -/
theorem C7_amended_witness :
    polyPath "polygon" [0, 0, 10, 0, 10, 10] =
      some [.moveTo (0, 0), .lineTo (10, 0), .lineTo (10, 10), .lineTo (0, 0)] ∧
    polyPath "polyline" [0, 0, 10, 0, 10, 10] =
      some [.moveTo (0, 0), .lineTo (10, 0), .lineTo (10, 10)] ∧
    polyPath "polyline" [7] = some [] ∧
    DrawOp.close ∉ [DrawOp.moveTo ((0 : ℚ), (0 : ℚ)), .lineTo (10, 0), .lineTo (10, 10),
      .lineTo (0, 0)] := by
  refine ⟨?_, ?_, C7_amended.2.1 "polyline" [7] (by decide), ?_⟩
  · rw [C7_amended.1 "polygon" 0 0 [10, 0, 10, 10] (by decide)]
    with_unfolding_all decide
  · rw [C7_amended.1 "polyline" 0 0 [10, 0, 10, 10] (by decide)]
    with_unfolding_all decide
  · exact C7_amended.2.2 "polygon" [0, 0, 10, 0, 10, 10]
      [.moveTo (0, 0), .lineTo (10, 0), .lineTo (10, 10), .lineTo (0, 0)]
      (by with_unfolding_all decide)

/-! ## Claim C10 -/

/-- Claim C10 holds: for every points list of odd length with at least three
values, the pair-forming loop of `Poly.Path` reaches a final iteration whose
guard `i < len(points)` still holds with one value left, and the access
`p.Points[i+1]` is one index past the end of the list (a Go runtime panic,
`none` in this model): the conversion is not total on odd-length input. -/
theorem C10_odd_out_of_range (name : String) (pts : List ℚ)
    (hodd : pts.length % 2 = 1) (hlen : 3 ≤ pts.length) :
    polyPath name pts = none := by
  match pts, hodd, hlen with
  | [], hodd, _ => simp at hodd
  | [x], _, hlen => simp at hlen
  | x :: y :: rest, hodd, hlen =>
    have hrest : rest.length % 2 = 1 := by
      simp only [List.length_cons] at hodd
      omega
    have hlen2 : ¬ (x :: y :: rest).length ≤ 1 := by simp
    have step : polyPath name (x :: y :: rest) =
        (if (x :: y :: rest).length ≤ 1 then some []
         else match polyTail rest (x, y) with
         | none => none
         | some (ops, last) =>
           some (.moveTo (x, y) :: ops ++
             (if name = "polygon" ∧ last ≠ (x, y) then [.lineTo (x, y)] else []))) := rfl
    rw [step, if_neg hlen2, polyTail_odd rest (x, y) hrest]

/-- Witness for C10_odd_out_of_range on the odd-length list `[1, 2, 3]`. -/
theorem C10_odd_out_of_range_witness : polyPath "polyline" [1, 2, 3] = none :=
  C10_odd_out_of_range "polyline" [1, 2, 3] (by decide) (by decide)

end Svg2Gio

namespace Svg2Gio

/-! ## Claim C6 -/

/-- Claim C6 fails on the code in both directions: `"#fff"` (neither
`#RRGGBB` nor `#RRGGBBAA`) parses successfully to `0xfff` instead of failing
with InvalidColor, while the well-formed `"#ff0000ff"` fails, because
`strconv.ParseInt(…, 16, 32)` is a **signed** 32-bit parse and
`0xff0000ff > 2^31 − 1` is a range error. -/
theorem C6_counterexample :
    unmarshalColor "#fff".toList = .ok ⟨true, 0xfff⟩ ∧
    unmarshalColor "#fff".toList ≠ .error .invalidColor ∧
    unmarshalColor "#fff".toList ≠ .error .parseError ∧
    unmarshalColor "#ff0000ff".toList = .error .parseError := by
  refine ⟨by rfl, ?_, ?_, by rfl⟩
  · rw [show unmarshalColor "#fff".toList = .ok ⟨true, 0xfff⟩ from rfl]
    decide
  · rw [show unmarshalColor "#fff".toList = .ok ⟨true, 0xfff⟩ from rfl]
    decide

/-- Claim C6, amended: `"none"` maps to the unset color; a `"#"` followed by
any hex literal that `strconv.ParseInt(…, 16, 32)` accepts (so whose value
fits in a **signed** 32-bit integer) succeeds, with the implied alpha
`0xff000000` OR-ed in exactly when six characters follow the `#` (hence
`"#ff0000"` yields `0xffff0000`, `"#fff"` succeeds with `0xfff`, and
`"#RRGGBBAA"` with RR ≥ 0x80 fails with a range error); every non-`"none"`
input without the `#` prefix fails with InvalidColor, and unparsable or
out-of-range hex fails with the propagated strconv error. -/
theorem C6_amended :
    unmarshalColor "none".toList = .ok ⟨false, 0⟩ ∧
    unmarshalColor "#ff0000".toList = .ok ⟨true, 0xffff0000⟩ ∧
    (∀ (rest : List Char) (i : ℤ), rest.length = 6 → goParseIntHex32 rest = some i →
      unmarshalColor ('#' :: rest) = .ok ⟨true, Int.lor i 0xff000000⟩) ∧
    (∀ (rest : List Char) (i : ℤ), rest.length ≠ 6 → goParseIntHex32 rest = some i →
      unmarshalColor ('#' :: rest) = .ok ⟨true, i⟩) ∧
    (∀ rest : List Char, goParseIntHex32 rest = none →
      unmarshalColor ('#' :: rest) = .error .parseError) ∧
    (∀ (c : Char) (rest : List Char), c ≠ '#' → (c :: rest) ≠ "none".toList →
      unmarshalColor (c :: rest) = .error .invalidColor) := by
  have hashNotNone : ∀ rest : List Char, ('#' :: rest) ≠ "none".toList := by
    intro rest hh
    rw [show "none".toList = ['n', 'o', 'n', 'e'] from rfl] at hh
    exact absurd (List.cons.inj hh).1 (by decide)
  have takeHash : ∀ rest : List Char, ¬ (('#' :: rest).take 1 ≠ (['#'] : List Char)) := by
    intro rest
    simp
  refine ⟨by rfl, by rfl, ?_, ?_, ?_, ?_⟩
  · intro rest i h6 hp
    unfold unmarshalColor
    rw [if_neg (hashNotNone rest), if_neg (takeHash rest)]
    simp only [List.drop_one, List.tail_cons, hp, h6, if_pos]
  · intro rest i h6 hp
    unfold unmarshalColor
    rw [if_neg (hashNotNone rest), if_neg (takeHash rest)]
    simp [List.drop_one, hp, h6]
  · intro rest hp
    unfold unmarshalColor
    rw [if_neg (hashNotNone rest), if_neg (takeHash rest)]
    simp only [List.drop_one, List.tail_cons, hp]
  · intro c rest hc hnone
    unfold unmarshalColor
    rw [if_neg hnone, if_pos (by simp [List.take, hc])]

/-- Witness for C6_amended: each universally quantified part applied at a
concrete color string. -/
theorem C6_amended_witness :
    unmarshalColor ('#' :: "ff0000".toList) = .ok ⟨true, Int.lor 0xff0000 0xff000000⟩ ∧
    unmarshalColor ('#' :: "fff".toList) = .ok ⟨true, 0xfff⟩ ∧
    unmarshalColor ('#' :: "zz".toList) = .error .parseError ∧
    unmarshalColor ('r' :: "ed".toList) = .error .invalidColor := by
  refine ⟨?_, ?_, ?_, ?_⟩
  · exact C6_amended.2.2.1 "ff0000".toList 0xff0000 (by rfl) (by rfl)
  · exact C6_amended.2.2.2.1 "fff".toList 0xfff (by decide) (by rfl)
  · exact C6_amended.2.2.2.2.1 "zz".toList (by rfl)
  · exact C6_amended.2.2.2.2.2 'r' "ed".toList (by decide) (by decide)

/-! ## Claim C8 -/

/-- Claim C8 holds (for every value of the Bézier constant `q`, which stands
for the irrational `4·(√2−1)/3` of the code): the generated `ellipse`
function emits a MoveTo at the top point `(cx, cy − ry)` followed by exactly
four CubeTo segments whose control points are the κ-scaled ones (`curve =
rx·q` along x; `q·ry` along y, i.e. `curve` scaled by `ry/rx`), and the
fourth segment ends back at the start point, closing the loop exactly (hence
within any positive tolerance such as 1e-5). -/
theorem C8_ellipse (q cx cy rx ry : ℚ) (hrx : rx ≠ 0) :
    ellipse q (cx, cy) (rx, ry) =
      [.moveTo (cx, cy - ry),
       .cubeTo (cx + rx * q, cy - ry) (cx + rx, cy - q * ry) (cx + rx, cy),
       .cubeTo (cx + rx, cy + q * ry) (cx + rx * q, cy + ry) (cx, cy + ry),
       .cubeTo (cx - rx * q, cy + ry) (cx - rx, cy + q * ry) (cx - rx, cy),
       .cubeTo (cx - rx, cy - q * ry) (cx - rx * q, cy - ry) (cx, cy - ry)] ∧
    (ellipse q (cx, cy) (rx, ry)).head? = some (.moveTo (cx, cy - ry)) ∧
    (ellipse q (cx, cy) (rx, ry)).length = 5 ∧
    (ellipse q (cx, cy) (rx, ry)).countP (fun o => match o with
      | .cubeTo _ _ _ => true
      | _ => false) = 4 ∧
    (ellipse q (cx, cy) (rx, ry)).getLast? =
      some (.cubeTo (cx - rx, cy - q * ry) (cx - rx * q, cy - ry) (cx, cy - ry)) := by
  have h1 : rx * (ry / rx) = ry := by field_simp
  have h2 : rx * q * (ry / rx) = q * ry := by
    field_simp
    ring
  have main : ellipse q (cx, cy) (rx, ry) =
      [.moveTo (cx, cy - ry),
       .cubeTo (cx + rx * q, cy - ry) (cx + rx, cy - q * ry) (cx + rx, cy),
       .cubeTo (cx + rx, cy + q * ry) (cx + rx * q, cy + ry) (cx, cy + ry),
       .cubeTo (cx - rx * q, cy + ry) (cx - rx, cy + q * ry) (cx - rx, cy),
       .cubeTo (cx - rx, cy - q * ry) (cx - rx * q, cy - ry) (cx, cy - ry)] := by
    unfold ellipse
    simp only [h1, h2]
  refine ⟨main, ?_, ?_, ?_, ?_⟩
  · rw [main]; rfl
  · rw [main]; rfl
  · rw [main]; rfl
  · rw [main]; rfl

/-- Witness for C8_ellipse: the unit circle at the origin (rx = ry = 1, so
the scale is 1), with the concrete parameter value q = 1/2. -/
theorem C8_ellipse_witness :
    ellipse (1 / 2) (0, 0) (1, 1) =
      [.moveTo (0, -1),
       .cubeTo (1 / 2, -1) (1, -(1 / 2)) (1, 0),
       .cubeTo (1, 1 / 2) (1 / 2, 1) (0, 1),
       .cubeTo (-(1 / 2), 1) (-1, 1 / 2) (-1, 0),
       .cubeTo (-1, -(1 / 2)) (-(1 / 2), -1) (0, -1)] := by
  rw [(C8_ellipse (1 / 2) 0 0 1 1 (by norm_num)).1]
  with_unfolding_all decide

/-! ## Claim C9 -/

/-- Claim C9 fails on the code: the attribute list scanner
(`Points.UnmarshalText`) does **not** stop silently at the first
unrecognized token — it returns the `strconv.ParseFloat` error, so `"1,a"`
fails instead of yielding `[1]`. -/
theorem C9_counterexample :
    pointsUnmarshal "1,a".toList = .error () ∧
    pointsUnmarshal "1,a".toList ≠ .ok [1] := by
  refine ⟨by with_unfolding_all decide, by with_unfolding_all decide⟩

/-- Claim C9, amended: it is the path compiler's coordinate scanner that
implements the claimed grammar (optional leading '-', digits, at most one
'.', no exponent) and stops at the first unrecognized token without error;
the attribute list scanner (`Points.UnmarshalText`) instead splits chunks at
every space/comma and fails with an error on any chunk rejected by
`strconv.ParseFloat` — which, moreover, accepts exponent notation.  The
transform-matrix and view-box call sites additionally validate the number of
scanned values and fail on a wrong count. -/
theorem C9_amended :
    scanCoords "10 20 x30".toList = ([10, 20], "x30".toList) ∧
    scanCoords "1e1".toList = ([1], "e1".toList) ∧
    parseFloat "-1.5x".toList = (4, -(3 / 2), true) ∧
    (parseFloat "1.2.3".toList).2.2 = false ∧
    pointsUnmarshal "1e1".toList = .ok [10] ∧
    transformUnmarshal "matrix(1,2,3,4,5)".toList = .error () ∧
    transformUnmarshal "matrix(1,2,3,4,5,6)".toList = .ok [1, 2, 3, 4, 5, 6] ∧
    parseViewBox "0 0 24".toList = .error () ∧
    parseViewBox "0 0 24 24".toList = .ok ((0, 0), (24, 24)) := by
  refine ⟨by with_unfolding_all decide, by with_unfolding_all decide,
    by with_unfolding_all decide, by with_unfolding_all decide,
    by with_unfolding_all decide, by with_unfolding_all decide,
    by with_unfolding_all decide, by with_unfolding_all decide,
    by with_unfolding_all decide⟩

end Svg2Gio
